import Mathlib

/-!
Verification of the node filesystem domain of the brackets repository
(src/filesystem/impls/node/node/NodeFileSystemDomain.js).

The JavaScript module exposes five commands over a domain facade:
readdir, readFile, watchPath, unwatchPath, unwatchAll, plus a change
event. We embed the command handlers as pure Lean functions over an
explicit model of the OS filesystem interface (the promisified fs
calls the code makes) and over an explicit watch-registry state that
models the module-level object holding one watcher per path.
-/

/-- Errors surfaced by the modeled OS calls (the rejection value of a
promisified fs call); we only need to carry them around, so a string
message suffices. -/
abbrev IOErr := String

instance {ε α : Type} [DecidableEq ε] [DecidableEq α] : DecidableEq (Except ε α) :=
  fun x y =>
    match x, y with
    | .ok a, .ok b =>
        if h : a = b then .isTrue (by rw [h])
        else .isFalse (fun hc => h (Except.ok.inj hc))
    | .error a, .error b =>
        if h : a = b then .isTrue (by rw [h])
        else .isFalse (fun hc => h (Except.error.inj hc))
    | .ok _, .error _ => .isFalse (fun hc => Except.noConfusion hc)
    | .error _, .ok _ => .isFalse (fun hc => Except.noConfusion hc)

/-- Result of an OS stat call, as the code consumes it: stats.isDirectory(),
stats.mtime.getTime() (milliseconds since epoch) and stats.size. -/
structure RawStats where
  isDirectory : Bool
  mtimeMs : Int
  size : Nat
deriving Repr, DecidableEq

/-- Model of the filesystem interface the module consumes: the outcome of
fs.readdirAsync on a path, the outcome of fs.statAsync on a path, and the
raw byte content delivered by fs.readFileAsync on a path (before any
encoding is applied). -/
structure FS where
  readdirResult : String → Except IOErr (List String)
  statResult : String → Except IOErr RawStats
  fileBytes : String → Except IOErr (List Nat)

/-- One element of the readdir result: the object built as
_addStats(obj, stats) applied to an object holding only the child name. -/
structure StatEntry where
  name : String
  isFile : Bool
  mtime : Int
  size : Nat
deriving Repr, DecidableEq

/-- Result object of readFile: _addStats applied to an object holding the
decoded data string. -/
structure ReadFileResult where
  data : String
  isFile : Bool
  mtime : Int
  size : Nat
deriving Repr, DecidableEq

/-- The three fields that _addStats(obj, stats) copies onto its base object:
isFile is the negation of stats.isDirectory(), mtime is
stats.mtime.getTime(), size is stats.size. -/
def addStatsFields (stats : RawStats) : Bool × Int × Nat :=
  (!stats.isDirectory, stats.mtimeMs, stats.size)

/-- The readdir entry _addStats(obj with name, stats) builds at line 53 of the
source. -/
def mkStatEntry (name : String) (stats : RawStats) : StatEntry :=
  { name := name
    isFile := (addStatsFields stats).1
    mtime := (addStatsFields stats).2.1
    size := (addStatsFields stats).2.2 }

/-- The per-child stat target of readdirCmd, line 46 of the source:
fs.statAsync on the array join of path and name with the empty separator,
which is plain string concatenation with no path separator inserted. -/
def childStatPath (path name : String) : String :=
  String.join [path, name]

/-- The Promise.settle aggregation of readdirCmd, lines 49 to 57 of the
source: walk the settled inspectors in index order and push an entry for
each fulfilled stat, dropping rejected ones. -/
def settleReduce (names : List String) (inspectors : List (Except IOErr RawStats)) :
    List StatEntry :=
  (names.zip inspectors).foldl
    (fun total ni =>
      match ni.2 with
      | .ok stats => total ++ [mkStatEntry ni.1 stats]
      | .error _ => total)
    []

/-- Embedding of readdirCmd, lines 42 to 60 of the source: list the
directory (a listing failure fails the whole call), stat every child at
the concatenated path, and keep the fulfilled stats in listing order. -/
def readdirCmd (fsys : FS) (path : String) : Except IOErr (List StatEntry) :=
  match fsys.readdirResult path with
  | .error e => .error e
  | .ok names =>
      let inspectors := names.map (fun name => fsys.statResult (childStatPath path name))
      .ok (settleReduce names inspectors)

/-- The string fs.readFileAsync returns for encoding binary, an alias of
latin1: one character per raw byte, code point equal to the byte value. -/
def latin1Decode (bytes : List Nat) : String :=
  String.mk (bytes.map (fun b => Char.ofNat (b % 256)))

/-- JavaScript String.prototype.toString takes no parameter: applied to the
string the binary read produced, data.toString(encoding) at line 68 of the
source returns the receiver unchanged and ignores the encoding argument. -/
def jsStringToString (s : String) (_encoding : String) : String := s

/-- Embedding of readFileCmd, lines 62 to 72 of the source: join a binary
whole-file read with a stat; if either rejects the call rejects with that
rejection; on joint success the data string goes through
data.toString(encoding) and is merged with the annotated stat fields. -/
def readFileCmd (fsys : FS) (path : String) (encoding : String) :
    Except IOErr ReadFileResult :=
  match fsys.fileBytes path, fsys.statResult path with
  | .error e, _ => .error e
  | .ok _, .error e => .error e
  | .ok bytes, .ok stats =>
      let filteredData := jsStringToString (latin1Decode bytes) encoding
      .ok { data := filteredData
            isFile := (addStatsFields stats).1
            mtime := (addStatsFields stats).2.1
            size := (addStatsFields stats).2.2 }

/-- Whether a settled promise was fulfilled. -/
def isOk {ε α : Type} : Except ε α → Bool
  | .ok _ => true
  | .error _ => false

/-- The filter-shaped description of the settle-and-reduce aggregation:
keep, in order, the entries whose stat succeeded. -/
def surviving (fsys : FS) (path : String) (names : List String) : List StatEntry :=
  names.filterMap (fun name =>
    match fsys.statResult (childStatPath path name) with
    | .ok stats => some (mkStatEntry name stats)
    | .error _ => none)

theorem childStatPath_eq_append (path name : String) :
    childStatPath path name = path ++ name := by
  simp [childStatPath, String.join]

theorem settleReduce_foldl_aux (f : String → Except IOErr RawStats) :
    ∀ (names : List String) (acc : List StatEntry),
      (names.zip (names.map f)).foldl
          (fun total ni =>
            match ni.2 with
            | .ok stats => total ++ [mkStatEntry ni.1 stats]
            | .error _ => total)
          acc
        = acc ++ names.filterMap (fun name =>
            match f name with
            | .ok stats => some (mkStatEntry name stats)
            | .error _ => none) := by
  intro names
  induction names with
  | nil => intro acc; simp
  | cons n ns ih =>
      intro acc
      cases hf : f n with
      | ok stats =>
          simp only [List.map_cons, List.zip_cons_cons, List.foldl_cons, hf,
            List.filterMap_cons]
          rw [ih]
          simp
      | error e =>
          simp only [List.map_cons, List.zip_cons_cons, List.foldl_cons, hf,
            List.filterMap_cons]
          rw [ih]

/-- The settle-and-reduce aggregation of readdirCmd equals the stable
filter of the listing by stat success. -/
theorem settleReduce_eq_surviving (fsys : FS) (path : String) (names : List String) :
    settleReduce names (names.map (fun name => fsys.statResult (childStatPath path name)))
      = surviving fsys path names := by
  unfold settleReduce surviving
  simpa using settleReduce_foldl_aux
    (fun name => fsys.statResult (childStatPath path name)) names []

/-- readdirCmd, on a successful listing, returns the stable filter. -/
theorem readdirCmd_eq_surviving (fsys : FS) (path : String) (names : List String)
    (h : fsys.readdirResult path = .ok names) :
    readdirCmd fsys path = .ok (surviving fsys path names) := by
  unfold readdirCmd
  rw [h]
  simp [settleReduce_eq_surviving]

/-- Whether the per-child stat of a given child name fails. -/
def statFails (fsys : FS) (path : String) (name : String) : Bool :=
  match fsys.statResult (childStatPath path name) with
  | .ok _ => false
  | .error _ => true

/-- Length of the stable filter: survivors plus failures partition the
listing. -/
theorem surviving_length (fsys : FS) (path : String) (names : List String) :
    (surviving fsys path names).length + names.countP (statFails fsys path)
      = names.length := by
  induction names with
  | nil => simp [surviving]
  | cons n ns ih =>
      cases hf : fsys.statResult (childStatPath path n) with
      | ok stats =>
          simp only [surviving, List.filterMap_cons, hf, List.countP_cons,
            List.length_cons, statFails] at *
          simp [hf]
          omega
      | error e =>
          simp only [surviving, List.filterMap_cons, hf, List.countP_cons,
            List.length_cons, statFails] at *
          simp [hf]
          omega

/-- The names of the surviving entries form a sublist of the listing: the
filter is stable and does not re-sort. -/
theorem surviving_names_sublist (fsys : FS) (path : String) (names : List String) :
    ((surviving fsys path names).map (fun e => e.name)).Sublist names := by
  induction names with
  | nil => simp [surviving]
  | cons n ns ih =>
      cases hf : fsys.statResult (childStatPath path n) with
      | ok stats =>
          simp only [surviving, List.filterMap_cons, hf, List.map_cons]
          exact List.Sublist.cons₂ n ih
      | error e =>
          simp only [surviving, List.filterMap_cons, hf]
          exact List.Sublist.cons n ih

/-!
Watch registry. The source keeps a module-level object mapping each
watched path to the fs.watch handle created for it. We model the object
as an association list in insertion order, the JavaScript key order for
the string keys the module uses. Handles are opaque objects with
identity; we model handle identity by a ghost counter that issues a
fresh number to every successfully created handle, and we keep a ghost
list of handles that have been closed or have errored, so that the
specification phrase about entries holding an active, un-errored handle
can be stated.
-/

/-- State of the watch registry. watcherMap models the module-level object
holding one watcher per path; nextId and dead are ghost fields recording
handle identity and handle death, touched only where the code creates or
closes a handle. -/
structure WatchState where
  watcherMap : List (String × Nat)
  nextId : Nat
  dead : List Nat
deriving Repr, DecidableEq

/-- Bracket lookup on the map object: the handle stored under a path, if
any. -/
def lookupWatcher (m : List (String × Nat)) (p : String) : Option Nat :=
  (m.find? (fun e => e.1 == p)).map (fun e => e.2)

/-- Property delete on the map object: remove the binding of a path. -/
def eraseWatcher (m : List (String × Nat)) (p : String) : List (String × Nat) :=
  m.filter (fun e => !(e.1 == p))

/-- Embedding of unwatchPath, lines 78 to 90 of the source. closeFails
models whether watcher.close() throws for a given handle; a throw is
logged (the warn message) and the finally clause deletes the map entry
either way. The closed handle joins the ghost dead list. -/
def unwatchPath (closeFails : Nat → Bool) (p : String) (s : WatchState) :
    WatchState × List String :=
  match lookupWatcher s.watcherMap p with
  | none => (s, [])
  | some h =>
      ({ watcherMap := eraseWatcher s.watcherMap p
         nextId := s.nextId
         dead := h :: s.dead },
       if closeFails h then ["Failed to unwatch file " ++ p] else [])

/-- Embedding of watchPath, lines 96 to 116 of the source. If the path
already has an entry the function returns at once. Otherwise fs.watch
either throws (createFails, caught and logged) or returns a fresh handle
that is stored under the path. -/
def watchPath (createFails : Bool) (p : String) (s : WatchState) :
    WatchState × List String :=
  if (lookupWatcher s.watcherMap p).isSome then (s, [])
  else if createFails then (s, ["Failed to watch file " ++ p])
  else
    ({ watcherMap := s.watcherMap ++ [(p, s.nextId)]
       nextId := s.nextId + 1
       dead := s.dead }, [])

/-- Embedding of unwatchAll, lines 121 to 129 of the source: iterate over
the keys of the map and apply unwatchPath to each, accumulating the logs. -/
def unwatchAll (closeFails : Nat → Bool) (s : WatchState) :
    WatchState × List String :=
  (s.watcherMap.map (fun e => e.1)).foldl
    (fun acc p =>
      let r := unwatchPath closeFails p acc.1
      (r.1, acc.2 ++ r.2))
    (s, [])

/-- Embedding of the error handler installed at lines 109 to 112 of the
source: when the handle h created for path p reports an asynchronous
error event, the handler logs the error and calls unwatchPath on p. The
errored handle joins the ghost dead list first, since the OS has killed
it whether or not the registry still holds it. -/
def onWatcherError (closeFails : Nat → Bool) (p : String) (h : Nat)
    (s : WatchState) : WatchState × List String :=
  let r := unwatchPath closeFails p { s with dead := h :: s.dead }
  (r.1, ("Error watching file " ++ p) :: r.2)

/-- The watch lifecycle commands as the facade dispatches them; the error
channel of the dispatch carries an uncaught handler exception back to the
caller. -/
inductive WatchCmd where
  | watch (createFails : Bool) (p : String)
  | unwatch (p : String)
  | unwatchAllCmd
deriving Repr, DecidableEq

/-- Running one watch lifecycle command through the dispatch: the handlers
catch every internal failure, so no branch produces an error value. -/
def runWatchCmd (closeFails : Nat → Bool) (c : WatchCmd) (s : WatchState) :
    Except IOErr (WatchState × List String) :=
  match c with
  | .watch createFails p => .ok (watchPath createFails p s)
  | .unwatch p => .ok (unwatchPath closeFails p s)
  | .unwatchAllCmd => .ok (unwatchAll closeFails s)

/-- Registry consistency: keys are distinct (the map is an object), the
stored handles are distinct live objects, every stored handle was issued
by the ghost counter and is neither closed nor errored, and every dead
handle was issued by the counter. -/
def RegistryInv (s : WatchState) : Prop :=
  (s.watcherMap.map (fun e => e.1)).Nodup ∧
  (s.watcherMap.map (fun e => e.2)).Nodup ∧
  (∀ e ∈ s.watcherMap, e.2 < s.nextId ∧ e.2 ∉ s.dead) ∧
  (∀ h ∈ s.dead, h < s.nextId)

instance (s : WatchState) : Decidable (RegistryInv s) := by
  unfold RegistryInv
  infer_instance

theorem lookupWatcher_eq_none (m : List (String × Nat)) (p : String) :
    lookupWatcher m p = none ↔ ∀ e ∈ m, e.1 ≠ p := by
  unfold lookupWatcher
  simp [List.find?_eq_none]

/-- The map after unwatchPath is always the filtered map: when the path is
absent the filter removes nothing. -/
theorem unwatchPath_map (closeFails : Nat → Bool) (p : String) (s : WatchState) :
    ((unwatchPath closeFails p s).1).watcherMap = eraseWatcher s.watcherMap p := by
  unfold unwatchPath
  cases hl : lookupWatcher s.watcherMap p with
  | none =>
      have hall := (lookupWatcher_eq_none s.watcherMap p).1 hl
      unfold eraseWatcher
      rw [List.filter_eq_self.2]
      intro e he
      simpa using hall e he
  | some h => rfl

/-- unwatchPath never touches the ghost counter. -/
theorem unwatchPath_nextId (closeFails : Nat → Bool) (p : String) (s : WatchState) :
    ((unwatchPath closeFails p s).1).nextId = s.nextId := by
  unfold unwatchPath
  cases lookupWatcher s.watcherMap p <;> rfl

/-- unwatchPath on an unwatched path is a no-op with no log. -/
theorem unwatchPath_not_watched (closeFails : Nat → Bool) (p : String)
    (s : WatchState) (h : lookupWatcher s.watcherMap p = none) :
    unwatchPath closeFails p s = (s, []) := by
  unfold unwatchPath
  rw [h]

/-- After unwatchPath the path has no entry, whatever close did. -/
theorem unwatchPath_removes (closeFails : Nat → Bool) (p : String) (s : WatchState) :
    lookupWatcher ((unwatchPath closeFails p s).1).watcherMap p = none := by
  rw [unwatchPath_map]
  rw [lookupWatcher_eq_none]
  intro e he
  unfold eraseWatcher at he
  have := List.of_mem_filter he
  simpa using this

/-- Entries under other keys survive unwatchPath with the same handle. -/
theorem find?_eraseWatcher_ne (m : List (String × Nat)) (p q : String)
    (hpq : q ≠ p) :
    (eraseWatcher m p).find? (fun e => e.1 == q) = m.find? (fun e => e.1 == q) := by
  induction m with
  | nil => rfl
  | cons e m ih =>
      unfold eraseWatcher at *
      by_cases hep : e.1 = p
      · rw [List.filter_cons_of_neg (by simp [hep])]
        rw [List.find?_cons_of_neg _ (by simp [hep]; exact fun hc => hpq hc.symm)]
        exact ih
      · rw [List.filter_cons_of_pos (by simp [hep])]
        by_cases heq : e.1 = q
        · rw [List.find?_cons_of_pos _ (by simp [heq]),
            List.find?_cons_of_pos _ (by simp [heq])]
        · rw [List.find?_cons_of_neg _ (by simp [heq]),
            List.find?_cons_of_neg _ (by simp [heq])]
          exact ih

theorem unwatchPath_frame (closeFails : Nat → Bool) (p q : String)
    (s : WatchState) (hpq : q ≠ p) :
    lookupWatcher ((unwatchPath closeFails p s).1).watcherMap q
      = lookupWatcher s.watcherMap q := by
  rw [unwatchPath_map]
  unfold lookupWatcher
  rw [find?_eraseWatcher_ne s.watcherMap p q hpq]

theorem find?_append_single_ne (m : List (String × Nat)) (p q : String)
    (h : Nat) (hpq : q ≠ p) :
    (m ++ [(p, h)]).find? (fun e => e.1 == q) = m.find? (fun e => e.1 == q) := by
  induction m with
  | nil =>
      simp only [List.nil_append]
      rw [List.find?_cons_of_neg _ (by simp; exact fun hc => hpq hc.symm)]
  | cons e m ih =>
      by_cases heq : e.1 = q
      · rw [List.cons_append, List.find?_cons_of_pos _ (by simp [heq]),
          List.find?_cons_of_pos _ (by simp [heq])]
      · rw [List.cons_append, List.find?_cons_of_neg _ (by simp [heq]),
          List.find?_cons_of_neg _ (by simp [heq])]
        exact ih

/-- watchPath on an already-watched path returns at once: the state is
unchanged, no new handle is created, nothing is logged. -/
theorem watchPath_watched (createFails : Bool) (p : String) (s : WatchState)
    (h : (lookupWatcher s.watcherMap p).isSome) :
    watchPath createFails p s = (s, []) := by
  unfold watchPath
  rw [if_pos h]

/-- watchPath whose handle creation throws leaves the state unchanged and
only logs a warning. -/
theorem watchPath_createFails (p : String) (s : WatchState)
    (h : lookupWatcher s.watcherMap p = none) :
    watchPath true p s = (s, ["Failed to watch file " ++ p]) := by
  unfold watchPath
  rw [h]
  rfl

/-- watchPath on an unwatched path with a successful handle creation
appends the fresh handle under that path. -/
theorem watchPath_added (p : String) (s : WatchState)
    (h : lookupWatcher s.watcherMap p = none) :
    watchPath false p s
      = ({ watcherMap := s.watcherMap ++ [(p, s.nextId)]
           nextId := s.nextId + 1
           dead := s.dead }, []) := by
  unfold watchPath
  rw [h]
  rfl

/-- Entries under other keys survive watchPath with the same handle. -/
theorem watchPath_frame (createFails : Bool) (p q : String) (s : WatchState)
    (hpq : q ≠ p) :
    lookupWatcher ((watchPath createFails p s).1).watcherMap q
      = lookupWatcher s.watcherMap q := by
  unfold watchPath
  by_cases hl : (lookupWatcher s.watcherMap p).isSome
  · rw [if_pos hl]
  · rw [if_neg hl]
    cases createFails with
    | true => rfl
    | false =>
        show lookupWatcher (s.watcherMap ++ [(p, s.nextId)]) q
          = lookupWatcher s.watcherMap q
        unfold lookupWatcher
        rw [find?_append_single_ne s.watcherMap p q s.nextId hpq]

theorem lookupWatcher_append_self (m : List (String × Nat)) (p : String)
    (hdl : Nat) (hnone : lookupWatcher m p = none) :
    lookupWatcher (m ++ [(p, hdl)]) p = some hdl := by
  induction m with
  | nil =>
      unfold lookupWatcher
      rw [List.nil_append, List.find?_cons_of_pos _ (by simp)]
      rfl
  | cons e m ih =>
      by_cases hep : e.1 = p
      · exfalso
        unfold lookupWatcher at hnone
        rw [List.find?_cons_of_pos _ (by simp [hep])] at hnone
        simp at hnone
      · unfold lookupWatcher at *
        rw [List.cons_append, List.find?_cons_of_neg _ (by simp [hep])]
        rw [List.find?_cons_of_neg _ (by simp [hep])] at hnone
        exact ih hnone

/-- A key with an entry has exactly one entry when keys are distinct. -/
theorem countKey_one_of_watched (m : List (String × Nat)) (p : String)
    (hnd : (m.map (fun e => e.1)).Nodup) (h : (lookupWatcher m p).isSome) :
    m.countP (fun e => e.1 == p) = 1 := by
  induction m with
  | nil => simp [lookupWatcher] at h
  | cons e m ih =>
      rw [List.map_cons, List.nodup_cons] at hnd
      by_cases hep : e.1 = p
      · have hzero : m.countP (fun e => e.1 == p) = 0 := by
          rw [List.countP_eq_zero]
          intro a ha
          simp only [beq_iff_eq]
          intro hc
          apply hnd.1
          rw [hep, ← hc]
          exact List.mem_map_of_mem _ ha
        rw [List.countP_cons]
        simp [hep, hzero]
      · have hm : (lookupWatcher m p).isSome := by
          unfold lookupWatcher at h ⊢
          rw [List.find?_cons_of_neg _ (by simp [hep])] at h
          exact h
        rw [List.countP_cons]
        simp [hep, ih hnd.2 hm]

/-- A key with no entry has zero entries. -/
theorem countKey_zero_of_unwatched (m : List (String × Nat)) (p : String)
    (h : lookupWatcher m p = none) :
    m.countP (fun e => e.1 == p) = 0 := by
  rw [List.countP_eq_zero]
  intro a ha
  have := (lookupWatcher_eq_none m p).1 h a ha
  simpa using this

/-- watchPath preserves distinctness of the registry keys. -/
theorem watchPath_keys_nodup (createFails : Bool) (p : String) (s : WatchState)
    (hnd : (s.watcherMap.map (fun e => e.1)).Nodup) :
    (((watchPath createFails p s).1).watcherMap.map (fun e => e.1)).Nodup := by
  unfold watchPath
  by_cases hl : (lookupWatcher s.watcherMap p).isSome
  · rw [if_pos hl]; exact hnd
  · rw [if_neg hl]
    cases createFails with
    | true => exact hnd
    | false =>
        show ((s.watcherMap ++ [(p, s.nextId)]).map (fun e => e.1)).Nodup
        simp only [List.map_append, List.map_cons, List.map_nil]
        rw [(List.perm_append_singleton _ _).nodup_iff]
        rw [List.nodup_cons]
        refine ⟨fun hmem => ?_, hnd⟩
        rw [List.mem_map] at hmem
        obtain ⟨e, he, hep⟩ := hmem
        have hnone : lookupWatcher s.watcherMap p = none := by
          cases hc : lookupWatcher s.watcherMap p with
          | none => rfl
          | some v => rw [hc] at hl; simp at hl
        exact (lookupWatcher_eq_none s.watcherMap p).1 hnone e he hep

/-- The loop body of unwatchAll. -/
def unwatchStep (closeFails : Nat → Bool) (acc : WatchState × List String)
    (p : String) : WatchState × List String :=
  let r := unwatchPath closeFails p acc.1
  (r.1, acc.2 ++ r.2)

theorem unwatchAll_eq_foldl (closeFails : Nat → Bool) (s : WatchState) :
    unwatchAll closeFails s
      = (s.watcherMap.map (fun e => e.1)).foldl (unwatchStep closeFails) (s, []) := by
  rfl

/-- Sweeping unwatchPath over a superset of the registry keys empties the
registry. -/
theorem unwatch_foldl_clears (closeFails : Nat → Bool) :
    ∀ (ps : List String) (start : WatchState × List String),
      (∀ e ∈ start.1.watcherMap, e.1 ∈ ps) →
      ((ps.foldl (unwatchStep closeFails) start).1).watcherMap = [] := by
  intro ps
  induction ps with
  | nil =>
      intro start h
      rw [List.foldl_nil]
      exact List.eq_nil_iff_forall_not_mem.2
        (fun e he => absurd (h e he) (List.not_mem_nil e.1))
  | cons p ps ih =>
      intro start h
      rw [List.foldl_cons]
      apply ih
      intro e he
      have hmap : ((unwatchStep closeFails start p).1).watcherMap
          = eraseWatcher start.1.watcherMap p := unwatchPath_map closeFails p start.1
      rw [hmap] at he
      unfold eraseWatcher at he
      rw [List.mem_filter] at he
      have hin := h e he.1
      have hne : e.1 ≠ p := by simpa using he.2
      rw [List.mem_cons] at hin
      exact hin.resolve_left hne

/-- After unwatchAll the registry is empty, whatever it held and however
the closes went. -/
theorem unwatchAll_clears (closeFails : Nat → Bool) (s : WatchState) :
    ((unwatchAll closeFails s).1).watcherMap = [] := by
  rw [unwatchAll_eq_foldl]
  exact unwatch_foldl_clears closeFails _ (s, [])
    (fun e he => List.mem_map_of_mem _ he)

/-- unwatchPath preserves the registry consistency invariant. -/
theorem RegistryInv_unwatchPath (closeFails : Nat → Bool) (p : String)
    (s : WatchState) (hinv : RegistryInv s) :
    RegistryInv ((unwatchPath closeFails p s).1) := by
  obtain ⟨hk, hh, hm, hd⟩ := hinv
  unfold unwatchPath
  cases hl : lookupWatcher s.watcherMap p with
  | none => exact ⟨hk, hh, hm, hd⟩
  | some h =>
      have hfind : ∃ f ∈ s.watcherMap, f.1 = p ∧ f.2 = h := by
        unfold lookupWatcher at hl
        cases hf : s.watcherMap.find? (fun e => e.1 == p) with
        | none => rw [hf] at hl; simp at hl
        | some f =>
            rw [hf] at hl
            refine ⟨f, List.mem_of_find?_eq_some hf, ?_, ?_⟩
            · have := List.find?_some hf
              simpa using this
            · simpa using hl
      obtain ⟨f, hfmem, hfp, hfh⟩ := hfind
      have hsubl : (eraseWatcher s.watcherMap p).Sublist s.watcherMap := by
        unfold eraseWatcher
        exact List.filter_sublist _
      refine ⟨?_, ?_, ?_, ?_⟩
      · exact (hsubl.map (fun e => e.1)).nodup hk
      · exact (hsubl.map (fun e => e.2)).nodup hh
      · intro e he
        have hemem : e ∈ s.watcherMap := hsubl.mem he
        have hne : e.1 ≠ p := by
          unfold eraseWatcher at he
          have := (List.mem_filter.1 he).2
          simpa using this
        refine ⟨(hm e hemem).1, ?_⟩
        rw [List.mem_cons]
        rintro (hcase | hcase)
        · rw [← hfh] at hcase
          have hef : e = f := List.inj_on_of_nodup_map hh hemem hfmem hcase
          exact hne (hef ▸ hfp)
        · exact (hm e hemem).2 hcase
      · intro x hx
        rw [List.mem_cons] at hx
        rcases hx with hx | hx
        · rw [hx, ← hfh]
          exact (hm f hfmem).1
        · exact hd x hx

/-- watchPath preserves the registry consistency invariant. -/
theorem RegistryInv_watchPath (createFails : Bool) (p : String)
    (s : WatchState) (hinv : RegistryInv s) :
    RegistryInv ((watchPath createFails p s).1) := by
  obtain ⟨hk, hh, hm, hd⟩ := hinv
  unfold watchPath
  by_cases hl : (lookupWatcher s.watcherMap p).isSome
  · rw [if_pos hl]; exact ⟨hk, hh, hm, hd⟩
  · rw [if_neg hl]
    cases createFails with
    | true => exact ⟨hk, hh, hm, hd⟩
    | false =>
        have hnone : lookupWatcher s.watcherMap p = none := by
          cases hc : lookupWatcher s.watcherMap p with
          | none => rfl
          | some v => rw [hc] at hl; simp at hl
        show RegistryInv
          { watcherMap := s.watcherMap ++ [(p, s.nextId)]
            nextId := s.nextId + 1
            dead := s.dead }
        refine ⟨?_, ?_, ?_, ?_⟩
        · have := watchPath_keys_nodup false p s hk
          unfold watchPath at this
          rw [if_neg hl] at this
          exact this
        · show ((s.watcherMap ++ [(p, s.nextId)]).map (fun e => e.2)).Nodup
          simp only [List.map_append, List.map_cons, List.map_nil]
          rw [(List.perm_append_singleton _ _).nodup_iff]
          rw [List.nodup_cons]
          refine ⟨fun hmem => ?_, hh⟩
          rw [List.mem_map] at hmem
          obtain ⟨e, he, hev⟩ := hmem
          exact absurd (hev ▸ (hm e he).1) (lt_irrefl s.nextId)
        · intro e he
          rw [List.mem_append] at he
          rcases he with he | he
          · exact ⟨Nat.lt_succ_of_lt (hm e he).1, (hm e he).2⟩
          · rw [List.mem_singleton] at he
            subst he
            exact ⟨Nat.lt_succ_self _, fun hc => absurd (hd _ hc) (lt_irrefl _)⟩
        · intro x hx
          exact Nat.lt_succ_of_lt (hd x hx)

/-- unwatchAll preserves the registry consistency invariant. -/
theorem RegistryInv_unwatchAll (closeFails : Nat → Bool) (s : WatchState)
    (hinv : RegistryInv s) :
    RegistryInv ((unwatchAll closeFails s).1) := by
  rw [unwatchAll_eq_foldl]
  have hgen : ∀ (ps : List String) (start : WatchState × List String),
      RegistryInv start.1 →
      RegistryInv ((ps.foldl (unwatchStep closeFails) start).1) := by
    intro ps
    induction ps with
    | nil => intro start h; exact h
    | cons p ps ih =>
        intro start h
        rw [List.foldl_cons]
        exact ih _ (RegistryInv_unwatchPath closeFails p start.1 h)
  exact hgen _ (s, []) hinv

/-- The error handler preserves the registry consistency invariant: the
errored handle was issued by the registry and can only be registered
under the path it was created for. -/
theorem RegistryInv_onWatcherError (closeFails : Nat → Bool) (p : String)
    (h : Nat) (s : WatchState) (hinv : RegistryInv s)
    (hissued : h < s.nextId)
    (hown : (p, h) ∈ s.watcherMap ∨ h ∉ s.watcherMap.map (fun e => e.2)) :
    RegistryInv ((onWatcherError closeFails p h s).1) := by
  obtain ⟨hk, hh, hm, hd⟩ := hinv
  unfold onWatcherError unwatchPath
  cases hl : lookupWatcher { s with dead := h :: s.dead }.watcherMap p with
  | none =>
      refine ⟨hk, hh, ?_, ?_⟩
      · intro e he
        refine ⟨(hm e he).1, ?_⟩
        rw [List.mem_cons]
        rintro (hc | hc)
        · rcases hown with hown | hown
          · have : e.1 ≠ p := (lookupWatcher_eq_none _ p).1 hl e he
            have hef : e = (p, h) :=
              List.inj_on_of_nodup_map hh he hown (by simpa using hc)
            exact this (by rw [hef])
          · exact hown (hc ▸ List.mem_map_of_mem _ he)
        · exact (hm e he).2 hc
      · intro x hx
        rw [List.mem_cons] at hx
        rcases hx with hx | hx
        · exact hx ▸ hissued
        · exact hd x hx
  | some hp =>
      have hfind : ∃ f ∈ s.watcherMap, f.1 = p ∧ f.2 = hp := by
        unfold lookupWatcher at hl
        cases hf : s.watcherMap.find? (fun e => e.1 == p) with
        | none => rw [hf] at hl; simp at hl
        | some f =>
            rw [hf] at hl
            refine ⟨f, List.mem_of_find?_eq_some hf, ?_, ?_⟩
            · have := List.find?_some hf
              simpa using this
            · simpa using hl
      obtain ⟨f, hfmem, hfp, hfh⟩ := hfind
      have hsubl : (eraseWatcher s.watcherMap p).Sublist s.watcherMap := by
        unfold eraseWatcher
        exact List.filter_sublist _
      refine ⟨?_, ?_, ?_, ?_⟩
      · exact (hsubl.map (fun e => e.1)).nodup hk
      · exact (hsubl.map (fun e => e.2)).nodup hh
      · intro e he
        have hemem : e ∈ s.watcherMap := hsubl.mem he
        have hne : e.1 ≠ p := by
          unfold eraseWatcher at he
          have := (List.mem_filter.1 he).2
          simpa using this
        refine ⟨(hm e hemem).1, ?_⟩
        simp only [List.mem_cons]
        rintro (hc | hc | hc)
        · rw [← hfh] at hc
          have hef : e = f := List.inj_on_of_nodup_map hh hemem hfmem hc
          exact hne (hef ▸ hfp)
        · rcases hown with hown | hown
          · have hef : e = (p, h) :=
              List.inj_on_of_nodup_map hh hemem hown (by simpa using hc)
            exact hne (by rw [hef])
          · exact hown (hc ▸ List.mem_map_of_mem _ hemem)
        · exact (hm e hemem).2 hc
      · intro x hx
        simp only [List.mem_cons] at hx
        rcases hx with hx | hx | hx
        · rw [hx, ← hfh]
          exact (hm f hfmem).1
        · exact hx ▸ hissued
        · exact hd x hx


/-- The registry after an error event equals the registry after
unwatchPath: the handler does nothing else to the map. -/
theorem onWatcherError_map (closeFails : Nat → Bool) (p : String) (h : Nat)
    (s : WatchState) :
    ((onWatcherError closeFails p h s).1).watcherMap
      = ((unwatchPath closeFails p s).1).watcherMap := by
  unfold onWatcherError
  rw [unwatchPath_map, unwatchPath_map]

/-!
Concrete fixtures used by counterexamples and witnesses.
-/

/-- The scenario filesystem: a directory listing a and b, where the actual
child a lives at the separator-joined path /tmp/d/a as a ten-byte file
with a fixed mtime, and every other stat fails. -/
def fsC1 : FS where
  readdirResult := fun p =>
    if p = "/tmp/d" ∨ p = "/tmp/d/" then .ok ["a", "b"] else .error "ENOENT"
  statResult := fun p =>
    if p = "/tmp/d/a" then .ok { isDirectory := false, mtimeMs := 1000, size := 10 }
    else .error "ENOENT"
  fileBytes := fun _ => .error "EISDIR"

/-- A filesystem holding one two-byte file at /tmp/f whose bytes are the
UTF-8 encoding of a single accented character. -/
def fsC2 : FS where
  readdirResult := fun _ => .error "ENOTDIR"
  statResult := fun p =>
    if p = "/tmp/f" then .ok { isDirectory := false, mtimeMs := 2000, size := 2 }
    else .error "ENOENT"
  fileBytes := fun p =>
    if p = "/tmp/f" then .ok [195, 169] else .error "ENOENT"

/-- A registry state with one watched path, used by witnesses. -/
def sW : WatchState := { watcherMap := [("/w", 0)], nextId := 1, dead := [] }

/-- A registry state with two watched paths, used by witnesses. -/
def sW2 : WatchState :=
  { watcherMap := [("/a", 0), ("/b", 1)], nextId := 2, dead := [] }

/-- C1 counterexample: in the scenario filesystem the listing of /tmp/d is
a then b, the real child a lives at /tmp/d/a as a ten-byte file, yet the
command stats the direct concatenation /tmp/da, which fails, so
readdir of /tmp/d returns the empty list rather than the entry for a. -/
theorem C1_counterexample :
    fsC1.readdirResult "/tmp/d" = .ok ["a", "b"] ∧
    fsC1.statResult "/tmp/d/a"
        = .ok { isDirectory := false, mtimeMs := 1000, size := 10 } ∧
    fsC1.statResult "/tmp/da" = .error "ENOENT" ∧
    readdirCmd fsC1 "/tmp/d" = .ok [] ∧
    readdirCmd fsC1 "/tmp/d"
        ≠ .ok [{ name := "a", isFile := true, mtime := 1000, size := 10 }] := by
  refine ⟨by decide, by decide, by decide, by decide, by decide⟩

/-- C1 (amended): for every filesystem and path, readdir stats each child
at the plain concatenation of the directory path and the child name, with
no separator inserted, keeping the fulfilled stats in listing order; the
scenario result therefore obtains when the directory path carries its
trailing separator: readdir of /tmp/d/ returns exactly the entry for a,
with b silently omitted. -/
theorem C1_readdir_stats_concatenation :
    (∀ (fsys : FS) (path : String),
      readdirCmd fsys path =
        match fsys.readdirResult path with
        | .error e => .error e
        | .ok names =>
            .ok (names.filterMap (fun name =>
              match fsys.statResult (path ++ name) with
              | .ok stats => some (mkStatEntry name stats)
              | .error _ => none))) ∧
    readdirCmd fsC1 "/tmp/d/"
      = .ok [{ name := "a", isFile := true, mtime := 1000, size := 10 }] := by
  constructor
  · intro fsys path
    cases h : fsys.readdirResult path with
    | error e =>
        unfold readdirCmd
        rw [h]
    | ok names =>
        rw [readdirCmd_eq_surviving fsys path names h]
        unfold surviving
        simp only [childStatPath_eq_append]
  · decide

/-- C2: evaluation at the failing input. The file at /tmp/f holds the two
bytes 195 and 169, the UTF-8 encoding of one accented character.
Requesting utf8 returns the two-character binary string unchanged instead
of the one-character decoding, and a nonsense encoding name yields the
same successful result instead of an error from a decode step: the
encoding argument reaches only String.prototype.toString, which ignores
it. -/
theorem C2_encoding_ignored :
    readFileCmd fsC2 "/tmp/f" "utf8"
        = .ok { data := String.mk [Char.ofNat 195, Char.ofNat 169]
                isFile := true, mtime := 2000, size := 2 } ∧
    readFileCmd fsC2 "/tmp/f" "not-a-real-encoding"
        = readFileCmd fsC2 "/tmp/f" "utf8" ∧
    (String.mk [Char.ofNat 195, Char.ofNat 169]).length = 2 ∧
    "é".length = 1 ∧
    readFileCmd fsC2 "/tmp/f" "utf8"
        ≠ .ok { data := "é", isFile := true, mtime := 2000, size := 2 } := by
  refine ⟨by decide, by decide, by decide, by decide, by decide⟩

/-- C3: on a successful listing of N names of which K child stats fail,
readdir succeeds with exactly N minus K entries, the surviving names form
a sublist of the listing (a stable filter, never re-sorted), and failed
entries are dropped rather than reported as errors. -/
theorem C3_readdir_stable_filter (fsys : FS) (path : String)
    (names : List String) (h : fsys.readdirResult path = .ok names) :
    readdirCmd fsys path = .ok (surviving fsys path names) ∧
    (surviving fsys path names).length + names.countP (statFails fsys path)
        = names.length ∧
    ((surviving fsys path names).map (fun e => e.name)).Sublist names :=
  ⟨readdirCmd_eq_surviving fsys path names h,
   surviving_length fsys path names,
   surviving_names_sublist fsys path names⟩

theorem C3_witness :
    fsC1.readdirResult "/tmp/d/" = .ok ["a", "b"] ∧
    (readdirCmd fsC1 "/tmp/d/" = .ok (surviving fsC1 "/tmp/d/" ["a", "b"]) ∧
     (surviving fsC1 "/tmp/d/" ["a", "b"]).length
         + ["a", "b"].countP (statFails fsC1 "/tmp/d/") = ["a", "b"].length ∧
     ((surviving fsC1 "/tmp/d/" ["a", "b"]).map (fun e => e.name)).Sublist
       ["a", "b"]) :=
  ⟨by decide, C3_readdir_stable_filter fsC1 "/tmp/d/" ["a", "b"] (by decide)⟩

/-- C4: readFile fails exactly when at least one of its two sub-operations
fails; a failing content read rejects the call with the read error, a
failing stat after a successful read rejects it with the stat error, and
joint success always yields the complete result object, never a partial
one. -/
theorem C4_readFile_fails_iff_suboperation_fails (fsys : FS)
    (path encoding : String) :
    ((∃ e, readFileCmd fsys path encoding = .error e) ↔
      ((∃ e, fsys.fileBytes path = .error e) ∨
       (∃ e, fsys.statResult path = .error e))) ∧
    (∀ e, fsys.fileBytes path = .error e →
      readFileCmd fsys path encoding = .error e) ∧
    (∀ e bytes, fsys.fileBytes path = .ok bytes →
      fsys.statResult path = .error e →
      readFileCmd fsys path encoding = .error e) ∧
    (∀ bytes stats, fsys.fileBytes path = .ok bytes →
      fsys.statResult path = .ok stats →
      readFileCmd fsys path encoding
        = .ok { data := jsStringToString (latin1Decode bytes) encoding
                isFile := !stats.isDirectory
                mtime := stats.mtimeMs
                size := stats.size }) := by
  cases hr : fsys.fileBytes path with
  | error e1 =>
      refine ⟨⟨fun _ => Or.inl ⟨e1, rfl⟩, fun _ => ⟨e1, ?_⟩⟩, ?_, ?_, ?_⟩
      · unfold readFileCmd
        rw [hr]
      · intro e he
        unfold readFileCmd
        rw [hr]
        rw [Except.error.inj he]
      · intro e bytes hb
        exact absurd hb (fun hc => Except.noConfusion hc)
      · intro bytes stats hb
        exact absurd hb (fun hc => Except.noConfusion hc)
  | ok bytes0 =>
      cases hs : fsys.statResult path with
      | error e2 =>
          refine ⟨⟨fun _ => Or.inr ⟨e2, rfl⟩, fun _ => ⟨e2, ?_⟩⟩, ?_, ?_, ?_⟩
          · unfold readFileCmd
            rw [hr, hs]
          · intro e he
            exact absurd he (fun hc => Except.noConfusion hc)
          · intro e bytes hb hse
            unfold readFileCmd
            rw [hr, hs]
            rw [Except.error.inj hse]
          · intro bytes stats hb hso
            exact absurd hso (fun hc => Except.noConfusion hc)
      | ok stats0 =>
          have hok : readFileCmd fsys path encoding
              = .ok { data := jsStringToString (latin1Decode bytes0) encoding
                      isFile := !stats0.isDirectory
                      mtime := stats0.mtimeMs
                      size := stats0.size } := by
            unfold readFileCmd
            rw [hr, hs]
            rfl
          refine ⟨⟨?_, ?_⟩, ?_, ?_, ?_⟩
          · rintro ⟨e, he⟩
            rw [hok] at he
            exact absurd he (fun hc => Except.noConfusion hc)
          · rintro (⟨e, he⟩ | ⟨e, he⟩)
            · exact absurd he (fun hc => Except.noConfusion hc)
            · exact absurd he (fun hc => Except.noConfusion hc)
          · intro e he
            exact absurd he (fun hc => Except.noConfusion hc)
          · intro e bytes hb hse
            exact absurd hse (fun hc => Except.noConfusion hc)
          · intro bytes stats hb hso
            rw [← Except.ok.inj hb, ← Except.ok.inj hso]
            exact hok

theorem C4_witness :
    fsC1.fileBytes "/x" = .error "EISDIR" ∧
    readFileCmd fsC1 "/x" "utf8" = .error "EISDIR" ∧
    fsC2.fileBytes "/tmp/f" = .ok [195, 169] ∧
    fsC2.statResult "/tmp/f"
        = .ok { isDirectory := false, mtimeMs := 2000, size := 2 } ∧
    readFileCmd fsC2 "/tmp/f" "utf8"
        = .ok { data := jsStringToString (latin1Decode [195, 169]) "utf8"
                isFile := !(false : Bool), mtime := 2000, size := 2 } :=
  ⟨by decide,
   (C4_readFile_fails_iff_suboperation_fails fsC1 "/x" "utf8").2.1 "EISDIR" (by decide),
   by decide, by decide,
   (C4_readFile_fails_iff_suboperation_fails fsC2 "/tmp/f" "utf8").2.2.2
     [195, 169] { isDirectory := false, mtimeMs := 2000, size := 2 }
     (by decide) (by decide)⟩

/-- C5: watchPath on an already watched path is a no-op returning the
state untouched with nothing logged; two calls in succession, the first
with a succeeding handle creation, leave exactly one registry entry for
the path; and watchPath preserves key uniqueness, so the registry never
holds two handles for one path. -/
theorem C5_watchPath_idempotent (createFails1 createFails2 : Bool)
    (p : String) (s : WatchState)
    (hnd : (s.watcherMap.map (fun e => e.1)).Nodup)
    (hfirst : createFails1 = false) :
    ((lookupWatcher s.watcherMap p).isSome →
      watchPath createFails1 p s = (s, [])) ∧
    (((watchPath createFails2 p (watchPath createFails1 p s).1).1).watcherMap.countP
        (fun e => e.1 == p) = 1) ∧
    ((((watchPath createFails1 p s).1).watcherMap.map (fun e => e.1)).Nodup) := by
  subst hfirst
  refine ⟨watchPath_watched false p s, ?_, watchPath_keys_nodup false p s hnd⟩
  by_cases hl : (lookupWatcher s.watcherMap p).isSome
  · rw [watchPath_watched false p s hl]
    rw [watchPath_watched createFails2 p s hl]
    exact countKey_one_of_watched s.watcherMap p hnd hl
  · have hnone : lookupWatcher s.watcherMap p = none := by
      cases hc : lookupWatcher s.watcherMap p with
      | none => rfl
      | some v => rw [hc] at hl; simp at hl
    rw [watchPath_added p s hnone]
    have hsome : (lookupWatcher (s.watcherMap ++ [(p, s.nextId)]) p).isSome := by
      rw [lookupWatcher_append_self s.watcherMap p s.nextId hnone]
      rfl
    rw [watchPath_watched createFails2 p _ hsome]
    show (s.watcherMap ++ [(p, s.nextId)]).countP (fun e => e.1 == p) = 1
    rw [List.countP_append]
    rw [countKey_zero_of_unwatched s.watcherMap p hnone]
    simp

theorem C5_witness :
    ((sW.watcherMap.map (fun e => e.1)).Nodup ∧ (false = false)) ∧
    (((lookupWatcher sW.watcherMap "/p").isSome →
        watchPath false "/p" sW = (sW, [])) ∧
     (((watchPath false "/p" (watchPath false "/p" sW).1).1).watcherMap.countP
        (fun e => e.1 == "/p") = 1) ∧
     ((((watchPath false "/p" sW).1).watcherMap.map (fun e => e.1)).Nodup)) :=
  ⟨⟨by decide, rfl⟩, C5_watchPath_idempotent false false "/p" sW (by decide) rfl⟩

/-- C6: unwatchPath on an unwatched path is a no-op that leaves the state
untouched and logs nothing; on a watched path the registry entry is
removed on every outcome of the close attempt, the close error being at
most logged. -/
theorem C6_unwatchPath_noop_or_removes (closeFails : Nat → Bool)
    (p : String) (s : WatchState) :
    (lookupWatcher s.watcherMap p = none →
      unwatchPath closeFails p s = (s, [])) ∧
    lookupWatcher ((unwatchPath closeFails p s).1).watcherMap p = none :=
  ⟨unwatchPath_not_watched closeFails p s,
   unwatchPath_removes closeFails p s⟩

theorem C6_witness :
    (lookupWatcher sW.watcherMap "/q" = none ∧
      unwatchPath (fun _ => true) "/q" sW = (sW, [])) ∧
    ((lookupWatcher sW.watcherMap "/w").isSome = true ∧
      lookupWatcher ((unwatchPath (fun _ => true) "/w" sW).1).watcherMap "/w"
        = none) :=
  ⟨⟨by decide,
    (C6_unwatchPath_noop_or_removes (fun _ => true) "/q" sW).1 (by decide)⟩,
   ⟨by decide,
    (C6_unwatchPath_noop_or_removes (fun _ => true) "/w" sW).2⟩⟩

/-- C7: after unwatchAll the registry holds zero entries whatever it held
before and however the closes went, and unwatchAll is exactly the sweep
applying unwatchPath to every currently registered path. -/
theorem C7_unwatchAll_empties_registry (closeFails : Nat → Bool)
    (s : WatchState) :
    ((unwatchAll closeFails s).1).watcherMap = [] ∧
    unwatchAll closeFails s
      = (s.watcherMap.map (fun e => e.1)).foldl (unwatchStep closeFails) (s, []) :=
  ⟨unwatchAll_clears closeFails s, unwatchAll_eq_foldl closeFails s⟩

/-- C8: an asynchronous error event from the handle watched at a path
leaves the registry exactly as unwatchPath on that path would, and every
registry operation, the internal error transition included, preserves the
consistency invariant: each registered entry holds a handle the registry
issued that is neither closed nor errored. -/
theorem C8_error_event_self_healing (closeFails : Nat → Bool)
    (createFails : Bool) (p q r : String) (h : Nat) (s : WatchState)
    (hinv : RegistryInv s) (hissued : h < s.nextId)
    (hown : (p, h) ∈ s.watcherMap ∨ h ∉ s.watcherMap.map (fun e => e.2)) :
    ((onWatcherError closeFails p h s).1).watcherMap
        = ((unwatchPath closeFails p s).1).watcherMap ∧
    RegistryInv ((onWatcherError closeFails p h s).1) ∧
    RegistryInv ((watchPath createFails q s).1) ∧
    RegistryInv ((unwatchPath closeFails r s).1) ∧
    RegistryInv ((unwatchAll closeFails s).1) :=
  ⟨onWatcherError_map closeFails p h s,
   RegistryInv_onWatcherError closeFails p h s hinv hissued hown,
   RegistryInv_watchPath createFails q s hinv,
   RegistryInv_unwatchPath closeFails r s hinv,
   RegistryInv_unwatchAll closeFails s hinv⟩

theorem C8_witness :
    (RegistryInv sW2 ∧ (0 : Nat) < sW2.nextId ∧
      (("/a", 0) ∈ sW2.watcherMap ∨ 0 ∉ sW2.watcherMap.map (fun e => e.2))) ∧
    (((onWatcherError (fun _ => true) "/a" 0 sW2).1).watcherMap
        = ((unwatchPath (fun _ => true) "/a" sW2).1).watcherMap ∧
     RegistryInv ((onWatcherError (fun _ => true) "/a" 0 sW2).1) ∧
     RegistryInv ((watchPath false "/c" sW2).1) ∧
     RegistryInv ((unwatchPath (fun _ => true) "/b" sW2).1) ∧
     RegistryInv ((unwatchAll (fun _ => true) sW2).1)) :=
  ⟨⟨by decide, by decide, by decide⟩,
   C8_error_event_self_healing (fun _ => true) false "/a" "/c" "/b" 0 sW2
     (by decide) (by decide) (by decide)⟩

/-- C9: when handle creation throws, the path stays unwatched, the state
is untouched and the failure is only logged; and every watch lifecycle
command runs to a successful return through the dispatch, whatever the
internal close failures and whatever the command. -/
theorem C9_watch_failures_not_surfaced (closeFails : Nat → Bool)
    (c : WatchCmd) (p : String) (s : WatchState)
    (h : lookupWatcher s.watcherMap p = none) :
    watchPath true p s = (s, ["Failed to watch file " ++ p]) ∧
    ∃ out, runWatchCmd closeFails c s = .ok out := by
  refine ⟨watchPath_createFails p s h, ?_⟩
  cases c with
  | watch createFails q => exact ⟨_, rfl⟩
  | unwatch q => exact ⟨_, rfl⟩
  | unwatchAllCmd => exact ⟨_, rfl⟩

theorem C9_witness :
    (lookupWatcher sW.watcherMap "/p" = none) ∧
    (watchPath true "/p" sW = (sW, ["Failed to watch file " ++ "/p"]) ∧
     ∃ out, runWatchCmd (fun _ => true) (.watch true "/p") sW = .ok out) :=
  ⟨by decide,
   C9_watch_failures_not_surfaced (fun _ => true) (.watch true "/p") "/p" sW
     (by decide)⟩

/-- C10: the watch registry operations are frame respecting per path: for
distinct paths, unwatchPath on one leaves the entry of the other exactly
as it was, and watchPath on one modifies no entry other than its own. -/
theorem C10_registry_frame (closeFails : Nat → Bool) (createFails : Bool)
    (p q : String) (s : WatchState) (hpq : q ≠ p) :
    lookupWatcher ((unwatchPath closeFails p s).1).watcherMap q
        = lookupWatcher s.watcherMap q ∧
    lookupWatcher ((watchPath createFails p s).1).watcherMap q
        = lookupWatcher s.watcherMap q :=
  ⟨unwatchPath_frame closeFails p q s hpq,
   watchPath_frame createFails p q s hpq⟩

theorem C10_witness :
    (("/b" : String) ≠ "/a") ∧
    (lookupWatcher ((unwatchPath (fun _ => false) "/a" sW2).1).watcherMap "/b"
        = lookupWatcher sW2.watcherMap "/b" ∧
     lookupWatcher ((watchPath false "/a" sW2).1).watcherMap "/b"
        = lookupWatcher sW2.watcherMap "/b") :=
  ⟨by decide, C10_registry_frame (fun _ => false) false "/a" "/b" sW2 (by decide)⟩
